import Mathlib

/-!
Verification of `src/program_memory.c`: the program memory of a minimal
8-bit microcontroller instruction-set simulator.  The module consists of a
pure instruction encoder (`assemble`), a fixed-capacity store of encoded
instruction words populated once from a hard-coded symbolic program
(`program_memory_write`), read access (`program_memory_read`) and
subroutine-name resolution by address (`program_memory_subroutine_name`).

The C file includes `program_memory.h`, which is not part of the visible
sources.  The constants it provides (`PROGRAM_MEMORY_ADDRESS_WIDTH`, the
reset vector address, opcode values, register/port identifiers and the
`low`/`high` byte-extraction macros) are modelled from the spec below;
each such definition carries a doc comment starting `Modelled from the
spec:`.  Everything else is translated directly from `program_memory.c`.
-/

namespace ProgramMemoryC

/-- Modelled from the spec: the compile-time capacity of the program
memory, 256 slots ("Capacity is a compile-time constant (256 slots
here)"), provided by the missing header `program_memory.h` and used both
as the size of the `data` array and as the bound checked by
`program_memory_read`. -/
def PROGRAM_MEMORY_ADDRESS_WIDTH : Nat := 256

/-- Modelled from the spec: start address of the reset vector, provided by
the missing header.  The subroutine ranges tile the populated region
starting at address 0, and the reset-vector range precedes `main`, so
`RESET_vect = 0`. -/
def RESET_vect : Nat := 0

/-- Modelled from the spec: the no-operation opcode, provided by the
missing header.  Its value is pinned to `0x00` by the source itself: the
comment on `program_memory_read` says that for an invalid address "no
operation (0x00) is returned", and the function returns `0x00`. -/
def NOP : Nat := 0x00

/-- Modelled from the spec: the jump opcode, an opaque byte-valued
constant from the missing header ("This core treats them as opaque
byte-valued constants").  The exact value is not fixed by the spec; any
byte distinct from the other opcodes works, and no claim depends on the
particular value. -/
def JMP : Nat := 0x05

/-- Modelled from the spec: the subroutine-call opcode, an opaque
byte-valued constant from the missing header. -/
def CALL : Nat := 0x06

/-- Modelled from the spec: the subroutine-return opcode, an opaque
byte-valued constant from the missing header. -/
def RET : Nat := 0x07

/-- Modelled from the spec: the load opcode, an opaque byte-valued
constant from the missing header. -/
def LD : Nat := 0x02

/-- Modelled from the spec: the store opcode, an opaque byte-valued
constant from the missing header. -/
def ST : Nat := 0x03

/-- Modelled from the spec: the I/O-output opcode, an opaque byte-valued
constant from the missing header. -/
def OUT : Nat := 0x04

/-- Modelled from the spec: the load-immediate opcode, an opaque
byte-valued constant from the missing header. -/
def LDI : Nat := 0x01

/-- Modelled from the spec: general-purpose CPU register R16, an opaque
byte-valued operand constant from the missing header. -/
def R16 : Nat := 16

/-- Modelled from the spec: general-purpose CPU register R17. -/
def R17 : Nat := 17

/-- Modelled from the spec: general-purpose CPU register R18. -/
def R18 : Nat := 18

/-- Modelled from the spec: general-purpose CPU register R19. -/
def R19 : Nat := 19

/-- Modelled from the spec: general-purpose CPU register R24. -/
def R24 : Nat := 24

/-- Modelled from the spec: the pointer register X used as an operand
("pointer-register halves"), an opaque byte-valued constant from the
missing header. -/
def XREG : Nat := 26

/-- Modelled from the spec: low half of pointer register X. -/
def XL : Nat := 0x1A

/-- Modelled from the spec: high half of pointer register X. -/
def XH : Nat := 0x1B

/-- Modelled from the spec: I/O data register PORTB, an opaque byte-valued
port address from the missing header. -/
def PORTB : Nat := 0x05

/-- Modelled from the spec: I/O data-direction register DDRB, an opaque
byte-valued port address from the missing header. -/
def DDRB : Nat := 0x04

/-- Modelled from the spec: bit position of pin PORTB0 (pin 8). -/
def PORTB0 : Nat := 0

/-- Modelled from the spec: bit position of pin PORTB1 (pin 9). -/
def PORTB1 : Nat := 1

/-- Modelled from the spec: bit position of pin PORTB2 (pin 10). -/
def PORTB2 : Nat := 2

/-- Modelled from the spec: byte-extraction macro `low` from the missing
header, returning the low byte of a 16-bit value (used as
`low(1000)`). -/
def low (v : Nat) : Nat := v % 256

/-- Modelled from the spec: byte-extraction macro `high` from the missing
header, returning the high byte of a 16-bit value (used as
`high(1000)`). -/
def high (v : Nat) : Nat := v / 256 % 256

/-- Macro `main` from `program_memory.c`: start address for subroutine
main. -/
def main : Nat := 8

/-- Macro `main_loop` from `program_memory.c`: start address for the loop
in subroutine main. -/
def main_loop : Nat := 9

/-- Macro `led_blink` from `program_memory.c`: start address for
subroutine led_blink. -/
def led_blink : Nat := 13

/-- Macro `setup` from `program_memory.c`: start address for subroutine
setup. -/
def setup : Nat := 18

/-- Macro `init_ports` from `program_memory.c`: start address for
subroutine init_ports. -/
def init_ports : Nat := 21

/-- Macro `init_registers` from `program_memory.c`: start address for
subroutine init_registers. -/
def init_registers : Nat := 24

/-- Macro `end` from `program_memory.c` (renamed: `end` is a Lean
keyword): end address for the current program. -/
def end_addr : Nat := 30

/-- Macro `LED1` from `program_memory.c`: LED 1 connected to pin 8. -/
def LED1 : Nat := PORTB0

/-- Macro `LED2` from `program_memory.c`: LED 2 connected to pin 9. -/
def LED2 : Nat := PORTB1

/-- Macro `LED3` from `program_memory.c`: LED 3 connected to pin 10. -/
def LED3 : Nat := PORTB2

/-- `assemble` from `program_memory.c`: packs an opcode and two operands
into one instruction word, the opcode at bits 23 down to 16, operand 1 at
bits 15 down to 8 and operand 2 at bits 7 down to 0.  The C arguments are
`uint8_t` (values below 256); for such arguments the promoted-int shifts
and ors never exceed 2 ^ 24, so the conversion to `uint32_t` is the
identity and no reduction modulo 2 ^ 32 occurs. -/
def assemble (op_code op1 op2 : Nat) : Nat :=
  (op_code <<< 16) ||| (op1 <<< 8) ||| op2

/-- The module state of `program_memory.c`: its two file-scope/static
variables, the instruction array `data` (indexed 0 to 255) and the
init-once guard `program_memory_initialized` (function-static in
`program_memory_write`). -/
structure ProgramMemory where
  program_memory_initialized : Bool
  data : Nat → Nat

/-- The state at program start: in C, static storage is zero-initialized,
so every slot of `data` holds 0 and the guard flag is false. -/
def initial_program_memory : ProgramMemory :=
  { program_memory_initialized := false, data := fun _ => 0 }

/-- The sequence of 30 array stores performed by the body of
`program_memory_write` in `program_memory.c`, slot by slot in source
order. -/
def written_data (d : Nat → Nat) : Nat → Nat :=
  let d := Function.update d 0 (assemble JMP main 0x00)
  let d := Function.update d 1 (assemble NOP 0x00 0x00)
  let d := Function.update d 2 (assemble NOP 0x00 0x00)
  let d := Function.update d 3 (assemble NOP 0x00 0x00)
  let d := Function.update d 4 (assemble NOP 0x00 0x00)
  let d := Function.update d 5 (assemble NOP 0x00 0x00)
  let d := Function.update d 6 (assemble NOP 0x00 0x00)
  let d := Function.update d 7 (assemble NOP 0x00 0x00)
  let d := Function.update d 8 (assemble CALL setup 0x00)
  let d := Function.update d 9 (assemble CALL led_blink 0x00)
  let d := Function.update d 10 (assemble ST XREG R18)
  let d := Function.update d 11 (assemble LD R24 XREG)
  let d := Function.update d 12 (assemble JMP main_loop 0x00)
  let d := Function.update d 13 (assemble OUT PORTB R16)
  let d := Function.update d 14 (assemble OUT PORTB R17)
  let d := Function.update d 15 (assemble OUT PORTB R18)
  let d := Function.update d 16 (assemble OUT PORTB R19)
  let d := Function.update d 17 (assemble RET 0x00 0x00)
  let d := Function.update d 18 (assemble CALL init_ports 0x00)
  let d := Function.update d 19 (assemble CALL init_registers 0x00)
  let d := Function.update d 20 (assemble RET 0x00 0x00)
  let d := Function.update d 21 (assemble LDI R16 ((1 <<< LED1) ||| (1 <<< LED2) ||| (1 <<< LED3)))
  let d := Function.update d 22 (assemble OUT DDRB R16)
  let d := Function.update d 23 (assemble RET 0x00 0x00)
  let d := Function.update d 24 (assemble LDI R16 (1 <<< LED1))
  let d := Function.update d 25 (assemble LDI R17 (1 <<< LED2))
  let d := Function.update d 26 (assemble LDI R18 (1 <<< LED3))
  let d := Function.update d 27 (assemble LDI XL (low 1000))
  let d := Function.update d 28 (assemble LDI XH (high 1000))
  let d := Function.update d 29 (assemble RET 0x00 0x00)
  d

/-- `program_memory_write` from `program_memory.c`, as a transformer of
the module state: if the guard flag is already set the call returns
immediately; otherwise it writes the 30 instruction slots and sets the
flag. -/
def program_memory_write (s : ProgramMemory) : ProgramMemory :=
  if s.program_memory_initialized then s
  else { program_memory_initialized := true, data := written_data s.data }

/-- `program_memory_read` from `program_memory.c`: returns the instruction
at the given address, or `0x00` if the address is not below
`PROGRAM_MEMORY_ADDRESS_WIDTH`.  The C parameter is `uint8_t`; the address
is modelled as `Nat` so that the defensive else-branch keeps its
semantics (its unreachability under the `uint8_t` sizing is itself one of
the verified properties). -/
def program_memory_read (s : ProgramMemory) (address : Nat) : Nat :=
  if address < PROGRAM_MEMORY_ADDRESS_WIDTH then s.data address else 0x00

/-- `program_memory_subroutine_name` from `program_memory.c`: resolves an
address to the name of the subroutine whose range contains it, by the
source's chain of half-open range tests, with `"Unknown"` as the fallback.
The C body reads no module state. -/
def program_memory_subroutine_name (address : Nat) : String :=
  if RESET_vect ≤ address ∧ address < main then "RESET_vect"
  else if main ≤ address ∧ address < main_loop then "main"
  else if main_loop ≤ address ∧ address < led_blink then "main_loop"
  else if led_blink ≤ address ∧ address < setup then "led_blink"
  else if setup ≤ address ∧ address < init_ports then "setup"
  else if init_ports ≤ address ∧ address < init_registers then "init_ports"
  else if init_registers ≤ address ∧ address < end_addr then "init_registers"
  else "Unknown"

/-- A call to `program_memory_subroutine_name` made while the module is in
state `s`.  The C function lives in a module with mutable globals, so a
call site always runs against some module state; since the body reads no
global, the state parameter is ignored.  Used to state that name
resolution is independent of the store's state. -/
def program_memory_subroutine_name_in (s : ProgramMemory) (address : Nat) : String :=
  program_memory_subroutine_name address

/-- The named subroutine ranges encoded by the test chain of
`program_memory_subroutine_name`, in source order: name, start address
(inclusive), end address (exclusive). -/
def subroutine_ranges : List (String × Nat × Nat) :=
  [("RESET_vect", RESET_vect, main),
   ("main", main, main_loop),
   ("main_loop", main_loop, led_blink),
   ("led_blink", led_blink, setup),
   ("setup", setup, init_ports),
   ("init_ports", init_ports, init_registers),
   ("init_registers", init_registers, end_addr)]

/-- Oring a number shifted in above the low bit with the low-bit
decomposition of another number acts independently on the two parts. -/
theorem two_mul_lor_eq_add (a y : Nat) :
    (2 * a) ||| y = 2 * (a ||| (y / 2)) + y % 2 := by
  have h1 : 2 * a = Nat.bit false a := by simp [Nat.bit_false]
  have h2 : y = Nat.bit (Nat.bodd y) (Nat.div2 y) := (Nat.bit_decomp y).symm
  rw [h1]
  conv_lhs => rw [h2]
  rw [Nat.lor_bit]
  simp [Nat.bit_val, Nat.div2_val, Nat.mod_two_of_bodd]

/-- Bitwise or with a shifted value is addition when the unshifted operand
fits below the shift amount. -/
theorem shiftLeft_lor_eq_add (x : Nat) :
    ∀ (n : Nat) (y : Nat), y < 2 ^ n → (x <<< n) ||| y = x <<< n + y := by
  intro n
  induction n with
  | zero =>
    intro y hy
    interval_cases y
    simp
  | succ n ih =>
    intro y hy
    rw [Nat.shiftLeft_succ, two_mul_lor_eq_add]
    rw [ih (y / 2) (by omega)]
    omega

/-- For byte-sized arguments the three fields packed by `assemble` occupy
disjoint bit ranges, so the ors amount to positional addition. -/
theorem assemble_eq_add (o p q : Nat) (hp : p < 256) (hq : q < 256) :
    assemble o p q = 65536 * o + 256 * p + q := by
  have h8 : p <<< 8 = 256 * p := by rw [Nat.shiftLeft_eq]; ring
  have h16 : o <<< 16 = 65536 * o := by rw [Nat.shiftLeft_eq]; ring
  have hq2 : q < 2 ^ 8 := by omega
  have hpq : p <<< 8 + q < 2 ^ 16 := by rw [h8]; omega
  unfold assemble
  rw [Nat.lor_assoc, shiftLeft_lor_eq_add p 8 q hq2,
    shiftLeft_lor_eq_add o 16 (p <<< 8 + q) hpq, h16, h8]
  omega

/-- Claim C3: for all opcode, op1, op2 in [0,255], the word
`assemble(opcode, op1, op2)` has bits 23-16 equal to the opcode, bits 15-8
equal to op1, bits 7-0 equal to op2, and all bits above 23 equal to zero
(the word is below 2 ^ 24). -/
theorem assemble_field_layout (o p q : Nat)
    (ho : o < 256) (hp : p < 256) (hq : q < 256) :
    assemble o p q / 65536 % 256 = o ∧
    assemble o p q / 256 % 256 = p ∧
    assemble o p q % 256 = q ∧
    assemble o p q < 16777216 := by
  rw [assemble_eq_add o p q hp hq]
  refine ⟨?_, ?_, ?_, ?_⟩ <;> omega

/-- Witness for C3 at the concrete triple (18, 7, 255). -/
theorem assemble_field_layout_witness :
    18 < 256 ∧ 7 < 256 ∧ 255 < 256 ∧
    (assemble 18 7 255 / 65536 % 256 = 18 ∧
     assemble 18 7 255 / 256 % 256 = 7 ∧
     assemble 18 7 255 % 256 = 255 ∧
     assemble 18 7 255 < 16777216) :=
  ⟨by decide, by decide, by decide,
   assemble_field_layout 18 7 255 (by decide) (by decide) (by decide)⟩

/-- Claim C4: the encoder is injective — two distinct byte triples are
never encoded to the same word. -/
theorem assemble_inj (o1 a1 b1 o2 a2 b2 : Nat)
    (ho1 : o1 < 256) (ha1 : a1 < 256) (hb1 : b1 < 256)
    (ho2 : o2 < 256) (ha2 : a2 < 256) (hb2 : b2 < 256)
    (hne : (o1, a1, b1) ≠ (o2, a2, b2)) :
    assemble o1 a1 b1 ≠ assemble o2 a2 b2 := by
  intro heq
  rw [assemble_eq_add o1 a1 b1 ha1 hb1,
    assemble_eq_add o2 a2 b2 ha2 hb2] at heq
  apply hne
  obtain ⟨h1, h2, h3⟩ : o1 = o2 ∧ a1 = a2 ∧ b1 = b2 := by omega
  rw [h1, h2, h3]

/-- Witness for C4 at the concrete distinct triples (1, 2, 3) and
(1, 2, 4). -/
theorem assemble_inj_witness :
    1 < 256 ∧ 2 < 256 ∧ 3 < 256 ∧ 4 < 256 ∧
    ((1, 2, 3) : Nat × Nat × Nat) ≠ (1, 2, 4) ∧
    assemble 1 2 3 ≠ assemble 1 2 4 :=
  ⟨by decide, by decide, by decide, by decide, by decide,
   assemble_inj 1 2 3 1 2 4 (by decide) (by decide) (by decide)
     (by decide) (by decide) (by decide) (by decide)⟩

set_option maxRecDepth 8000 in
/-- Every slot of the populated store holds a value below 2 ^ 24, i.e. a
value in the range of the encoder. -/
theorem written_all_lt :
    ∀ a, a < 256 →
      (program_memory_write initial_program_memory).data a < 16777216 := by
  decide

set_option maxRecDepth 8000 in
/-- Every slot the fixed program leaves unused (the reset-vector padding
slots 1-7 and the slots from the program end up to capacity) holds the
no-operation encoding in the populated store. -/
theorem written_unused_nop :
    ∀ a, a < 256 → ((1 ≤ a ∧ a ≤ 7) ∨ end_addr ≤ a) →
      (program_memory_write initial_program_memory).data a
        = assemble NOP 0x00 0x00 := by
  decide

/-- Claim C1: after the first call to `program_memory_write`, every slot
0 to capacity-1 of the program memory holds a defined word in the
encoder's range, and every unused/reserved slot holds the no-operation
encoding `assemble NOP 0 0`; no slot is left undefined. -/
theorem program_memory_write_populates_all_slots (a : Nat)
    (ha : a < PROGRAM_MEMORY_ADDRESS_WIDTH) :
    (∃ o p q, o < 256 ∧ p < 256 ∧ q < 256 ∧
      (program_memory_write initial_program_memory).data a = assemble o p q) ∧
    ((1 ≤ a ∧ a ≤ 7) ∨ end_addr ≤ a →
      (program_memory_write initial_program_memory).data a
        = assemble NOP 0x00 0x00) := by
  simp only [PROGRAM_MEMORY_ADDRESS_WIDTH] at ha
  refine ⟨?_, fun h => written_unused_nop a ha h⟩
  have hlt := written_all_lt a ha
  set w := (program_memory_write initial_program_memory).data a with hw
  refine ⟨w / 65536, w / 256 % 256, w % 256, by omega, by omega, by omega, ?_⟩
  rw [assemble_eq_add (w / 65536) (w / 256 % 256) (w % 256) (by omega) (by omega)]
  omega

/-- Witness for C1 at the concrete slot 255 (an unused slot past the
program end). -/
theorem program_memory_write_populates_all_slots_witness :
    (255 : Nat) < PROGRAM_MEMORY_ADDRESS_WIDTH ∧
    ((∃ o p q, o < 256 ∧ p < 256 ∧ q < 256 ∧
      (program_memory_write initial_program_memory).data 255 = assemble o p q) ∧
    ((1 ≤ 255 ∧ 255 ≤ 7) ∨ end_addr ≤ 255 →
      (program_memory_write initial_program_memory).data 255
        = assemble NOP 0x00 0x00)) :=
  ⟨by decide, program_memory_write_populates_all_slots 255 (by decide)⟩

/-- Claim C2: for every address at or beyond the declared capacity and in
any state, `program_memory_read` returns the no-operation-encoded word: a
word equal to `assemble NOP 0 0`, whose opcode field (bits 23-16) is NOP's
code and whose two operand fields are zero. -/
theorem program_memory_read_out_of_range_nop (s : ProgramMemory)
    (address : Nat) (h : PROGRAM_MEMORY_ADDRESS_WIDTH ≤ address) :
    program_memory_read s address = assemble NOP 0x00 0x00 ∧
    program_memory_read s address / 65536 % 256 = NOP ∧
    program_memory_read s address / 256 % 256 = 0 ∧
    program_memory_read s address % 256 = 0 := by
  have hr : program_memory_read s address = 0 := by
    unfold program_memory_read
    rw [if_neg (Nat.not_lt.mpr h)]
  rw [hr]
  exact ⟨by decide, by decide, by decide, by decide⟩

/-- Witness for C2 at the concrete address 256 (the capacity) in the
initial state. -/
theorem program_memory_read_out_of_range_nop_witness :
    PROGRAM_MEMORY_ADDRESS_WIDTH ≤ 256 ∧
    (program_memory_read initial_program_memory 256 = assemble NOP 0x00 0x00 ∧
     program_memory_read initial_program_memory 256 / 65536 % 256 = NOP ∧
     program_memory_read initial_program_memory 256 / 256 % 256 = 0 ∧
     program_memory_read initial_program_memory 256 % 256 = 0) :=
  ⟨by decide,
   program_memory_read_out_of_range_nop initial_program_memory 256 (by decide)⟩

set_option maxRecDepth 8000 in
/-- Claim C5: the named subroutine ranges exactly tile the populated
region [0, 30): the first range starts at 0, each range's end equals the
next range's start, each range is nonempty (so the ranges neither overlap
nor leave gaps), and the last range ends at the program end 30; moreover
`program_memory_subroutine_name` returns a name other than "Unknown" for
every address in [0, 30) and "Unknown" for every address in [30, 255]. -/
theorem subroutine_ranges_tile_and_names :
    subroutine_ranges.head?.map (fun r => r.2.1) = some 0 ∧
    List.Chain' (fun r r2 => r.2.2 = r2.2.1) subroutine_ranges ∧
    (∀ r ∈ subroutine_ranges, r.2.1 < r.2.2) ∧
    subroutine_ranges.getLast?.map (fun r => r.2.2) = some end_addr ∧
    end_addr = 30 ∧
    (∀ a, a < 30 → program_memory_subroutine_name a ≠ "Unknown") ∧
    (∀ a, a < 256 → 30 ≤ a → program_memory_subroutine_name a = "Unknown") := by
  refine ⟨by decide, ?_, by decide, by decide, by decide, by decide, by decide⟩
  simp [subroutine_ranges, List.chain'_cons, RESET_vect, main, main_loop,
    led_blink, setup, init_ports, init_registers, end_addr]

set_option maxRecDepth 8000 in
/-- Claim C6: with the reference fixed program, after population the word
at address 0 decodes to opcode JMP with operand 1 equal to the start
address of main (8); `program_memory_subroutine_name` returns "main" at 8,
"led_blink" at 13, and "Unknown" at 255 and at every address at or beyond
the declared program end 30. -/
theorem reference_program_scenario :
    program_memory_read (program_memory_write initial_program_memory) 0
        / 65536 % 256 = JMP ∧
    program_memory_read (program_memory_write initial_program_memory) 0
        / 256 % 256 = main ∧
    main = 8 ∧
    program_memory_read (program_memory_write initial_program_memory) 0
        = assemble JMP main 0x00 ∧
    program_memory_subroutine_name 8 = "main" ∧
    program_memory_subroutine_name 13 = "led_blink" ∧
    program_memory_subroutine_name 255 = "Unknown" ∧
    (∀ a, a < 256 → end_addr ≤ a → program_memory_subroutine_name a = "Unknown") :=
  ⟨by decide, by decide, by decide, by decide, by decide, by decide, by decide,
   by decide⟩

/-- Claim C7: `program_memory_write` is idempotent — calling it twice
leaves the module state, and in particular the stored word at every
address, identical to calling it once; the second call is a silently
ignored no-op. -/
theorem program_memory_write_idempotent (s : ProgramMemory) :
    program_memory_write (program_memory_write s) = program_memory_write s ∧
    ∀ a, (program_memory_write (program_memory_write s)).data a
        = (program_memory_write s).data a := by
  have hkey : program_memory_write (program_memory_write s)
      = program_memory_write s := by
    by_cases hs : s.program_memory_initialized = true
    · simp [program_memory_write, hs]
    · simp [program_memory_write, hs]
  exact ⟨hkey, fun a => by rw [hkey]⟩

/-- Witness for C7 at the initial state. -/
theorem program_memory_write_idempotent_witness :
    program_memory_write (program_memory_write initial_program_memory)
        = program_memory_write initial_program_memory ∧
    ∀ a, (program_memory_write (program_memory_write initial_program_memory)).data a
        = (program_memory_write initial_program_memory).data a :=
  program_memory_write_idempotent initial_program_memory

/-- Claim C8: under the current sizing (8-bit address, 256-slot capacity)
the out-of-range branch of `program_memory_read` is unreachable: every
`uint8_t` address is below `PROGRAM_MEMORY_ADDRESS_WIDTH`, the array
access is in bounds, and the read returns the stored word `data[address]`
in every state. -/
theorem program_memory_read_in_range (s : ProgramMemory) (address : Nat)
    (h : address < 256) :
    address < PROGRAM_MEMORY_ADDRESS_WIDTH ∧
    program_memory_read s address = s.data address := by
  have hw : address < PROGRAM_MEMORY_ADDRESS_WIDTH := by
    simp only [PROGRAM_MEMORY_ADDRESS_WIDTH]
    omega
  exact ⟨hw, by unfold program_memory_read; rw [if_pos hw]⟩

/-- Witness for C8 at the concrete address 200 in the populated state. -/
theorem program_memory_read_in_range_witness :
    (200 : Nat) < 256 ∧
    (200 < PROGRAM_MEMORY_ADDRESS_WIDTH ∧
     program_memory_read (program_memory_write initial_program_memory) 200
       = (program_memory_write initial_program_memory).data 200) :=
  ⟨by decide,
   program_memory_read_in_range (program_memory_write initial_program_memory)
     200 (by decide)⟩

/-- Claim C9: subroutine-name resolution depends only on the address, not
on the store's state — a call returns the same name in any two module
states, and in particular the same name whether or not
`program_memory_write` has been called. -/
theorem subroutine_name_state_independence :
    (∀ s1 s2 : ProgramMemory, ∀ a,
      program_memory_subroutine_name_in s1 a
        = program_memory_subroutine_name_in s2 a) ∧
    (∀ a, program_memory_subroutine_name_in
            (program_memory_write initial_program_memory) a
        = program_memory_subroutine_name_in initial_program_memory a) :=
  ⟨fun _ _ _ => rfl, fun _ => rfl⟩

/-- Claim C10: before any call to `program_memory_write`, in the initial
state (C zero-initialized static storage), `program_memory_read` already
returns the defined word 0x00000000 for every address in [0, 255]; no
read faults or returns an undefined value. -/
theorem program_memory_read_uninitialized_zero (a : Nat) (h : a < 256) :
    program_memory_read initial_program_memory a = 0x00000000 := by
  unfold program_memory_read initial_program_memory
  split
  · rfl
  · rfl

/-- Witness for C10 at the concrete address 7. -/
theorem program_memory_read_uninitialized_zero_witness :
    (7 : Nat) < 256 ∧ program_memory_read initial_program_memory 7 = 0x00000000 :=
  ⟨by decide, program_memory_read_uninitialized_zero 7 (by decide)⟩

end ProgramMemoryC
